import Mathlib

/-!
Shallow embedding of the payment calculator `calculatePayment` from
`src/App.jsx` (lines 29–128) of the prep4iiser-manager repository.

JS numbers are modelled as exact rationals (ℚ); `Math.round` as
`jsRound` (floor of x + 1/2, which is JS round-half-up); `Number.toFixed(2)`
as `toFixed2`. A possibly-absent numeric field of a task object is an
`Option ℚ` (`none` = the property is absent / `undefined`); an absent
`chapterName` is modelled as the empty string, since the source only ever
tests its truthiness or uses it as a grouping key. JS truthiness of a
numeric field (`!task.minutes`, `if (task.rating)`, `baseRate || 10`)
is falsity exactly on 0 and `undefined`.
-/

namespace Prep4

/-- A work record as consumed by `calculatePayment`. Fields the source never
reads (`date`, `mentorId`) are omitted: the function's result does not depend
on them. -/
structure Task where
  taskType : String
  chapterName : String
  minutes : Option ℚ
  rating : Option ℚ
  chaptersCompleted : Option ℚ
deriving DecidableEq

/-- JS `x || 0` / reading an absent numeric property before adding:
`undefined` contributes 0. -/
def numOrZero : Option ℚ → ℚ
  | none => 0
  | some q => q

/-- The ratings a task pushes into its chapter group: the source pushes
`task.rating` only when truthy (`if (task.rating)`), so an absent or zero
rating contributes nothing. -/
def ratingList (t : Task) : List ℚ :=
  match t.rating with
  | none => []
  | some r => if r = 0 then [] else [r]

/-- Negation of the guard
`task.taskType !== 'Lecture' || !task.chapterName || !task.minutes || task.minutes <= 0`:
a task enters the chapter grouping iff it is a Lecture with a truthy chapter
name and minutes that are truthy (nonzero, non-absent) and not ≤ 0, i.e.
strictly positive. -/
def includeLecture (t : Task) : Bool :=
  decide (t.taskType = "Lecture" ∧ t.chapterName ≠ "" ∧ 0 < numOrZero t.minutes)

/-- Accumulator per chapter name, mirroring
`{ totalMinutes: 0, ratings: [], lectureCount: 0 }`. -/
structure ChapterAcc where
  totalMinutes : ℚ
  ratings : List ℚ
  lectureCount : ℕ
deriving DecidableEq

/-- Folding one task into a chapter accumulator:
`totalMinutes += task.minutes; if (task.rating) ratings.push(task.rating); lectureCount += 1`. -/
def ChapterAcc.addTask (a : ChapterAcc) (t : Task) : ChapterAcc :=
  { totalMinutes := a.totalMinutes + numOrZero t.minutes
    ratings := a.ratings ++ ratingList t
    lectureCount := a.lectureCount + 1 }

/-- Insert a task into the association list modelling the JS object
`acc`: update the (unique) existing entry for its chapter name, or append a
fresh entry (JS object insertion order). -/
def insertTask (t : Task) : List (String × ChapterAcc) → List (String × ChapterAcc)
  | [] => [(t.chapterName, ChapterAcc.addTask ⟨0, [], 0⟩ t)]
  | (k, a) :: rest =>
      if k = t.chapterName then (k, a.addTask t) :: rest
      else (k, a) :: insertTask t rest

/-- The `tasks.reduce` building `chapterData`, keyed by chapter name. -/
def chapterData (tasks : List Task) : List (String × ChapterAcc) :=
  tasks.foldl (fun acc t => if includeLecture t then insertTask t acc else acc) []

/-- `lectureBillableMinutes`: the for-in loop summing
`Math.min(data.totalMinutes, 240)` over the chapter groups. -/
def T_billableQ (tasks : List Task) : ℚ :=
  (chapterData tasks).foldl (fun s p => s + min p.2.totalMinutes 240) 0

/-- `lecturesCount`: the for-in loop summing `data.lectureCount`. -/
def lecturesCountN (tasks : List Task) : ℕ :=
  (chapterData tasks).foldl (fun s p => s + p.2.lectureCount) 0

/-- `lectureRatingSum`: the for-in loop summing
`data.ratings.reduce((sum, r) => sum + r, 0)`. -/
def ratingSumQ (tasks : List Task) : ℚ :=
  (chapterData tasks).foldl (fun s p => s + p.2.ratings.foldl (fun u r => u + r) 0) 0

/-- `lectureRatingCount`: the for-in loop summing `data.ratings.length`. -/
def ratingCountN (tasks : List Task) : ℕ :=
  (chapterData tasks).foldl (fun s p => s + p.2.ratings.length) 0

/-- `const R_minute = baseRatePerMinute || 10`. -/
def R_minuteQ (baseRatePerMinute : ℚ) : ℚ :=
  if baseRatePerMinute = 0 then 10 else baseRatePerMinute

/-- `const basePayLectures = lectureBillableMinutes * R_minute`. -/
def basePayLecturesQ (tasks : List Task) (baseRatePerMinute : ℚ) : ℚ :=
  T_billableQ tasks * R_minuteQ baseRatePerMinute

/-- `averageRating = lectureRatingCount > 0 ? sum / count : 5.0`. -/
def averageRatingQ (tasks : List Task) : ℚ :=
  if 0 < ratingCountN tasks then ratingSumQ tasks / (ratingCountN tasks : ℚ) else 5

/-- The `M_rate` if/else-if/else chain on `averageRating`. -/
def M_rateQ (avg : ℚ) : ℚ :=
  if avg < 2.5 then 0.6
  else if avg ≤ 3.5 then 0.75
  else 1

/-- The `M_freq` chain: initialised to 1.0, then three guarded branches in
source order; the final 1 is the fall-through value when no branch fires. -/
def M_freqQ (c : ℕ) (tb : ℚ) : ℚ :=
  if 3 ≤ c ∧ 180 ≤ tb then 1.2
  else if 2 ≤ c ∧ 120 ≤ tb then 1
  else if c < 2 ∨ tb < 120 then 0.8
  else 1

/-- `const P_final_lectures = basePayLectures * M_rate * M_freq`. -/
def P_final_lecturesQ (tasks : List Task) (baseRatePerMinute : ℚ) : ℚ :=
  basePayLecturesQ tasks baseRatePerMinute * M_rateQ (averageRatingQ tasks)
    * M_freqQ (lecturesCountN tasks) (T_billableQ tasks)

/-- `tasks.filter(t => t.taskType !== 'Lecture')`. -/
def nonLectureTasks (tasks : List Task) : List Task :=
  tasks.filter (fun t => decide (t.taskType ≠ "Lecture"))

/-- `totalChaptersCompleted` accumulated over the non-Lecture tasks, each
contributing `task.chaptersCompleted || 0`. -/
def totalChaptersCompletedQ (tasks : List Task) : ℚ :=
  (nonLectureTasks tasks).foldl (fun s t => s + numOrZero t.chaptersCompleted) 0

/-- `P_final_other` accumulated over the non-Lecture tasks, each contributing
`chapters * CHAPTER_RATE` with `CHAPTER_RATE = 500`. -/
def P_final_otherQ (tasks : List Task) : ℚ :=
  (nonLectureTasks tasks).foldl (fun s t => s + numOrZero t.chaptersCompleted * 500) 0

/-- JS `Math.round`: round half toward +∞, i.e. ⌊x + 1/2⌋. -/
def jsRound (q : ℚ) : ℤ := ⌊q + 1 / 2⌋

/-- Left-pad a fractional part to two digits. -/
def padTwo (f : ℕ) : String :=
  if f < 10 then "0" ++ toString f else toString f

/-- JS `x.toFixed(2)` for the non-negative values it is applied to here
(an average of ratings, or the default 5): round x·100 to the nearest
integer and print it with two decimal digits. -/
def toFixed2 (q : ℚ) : String :=
  toString (jsRound (q * 100) / 100) ++ "." ++ padTwo (jsRound (q * 100) % 100).toNat

/-- The object literal returned by `calculatePayment`. -/
structure PaymentBreakdown where
  P_final : ℤ
  P_final_lectures : ℤ
  P_final_other : ℤ
  T_billable : ℚ
  totalChaptersCompleted : ℚ
  R_minute : ℚ
  M_rate : ℚ
  M_freq : ℚ
  averageRating : String
  lecturesCount : ℕ
  basePayLectures : ℤ
  CHAPTER_RATE : ℚ
deriving DecidableEq

/-- `calculatePayment(tasks, baseRatePerMinute)` from `src/App.jsx`. -/
def calculatePayment (tasks : List Task) (baseRatePerMinute : ℚ) : PaymentBreakdown :=
  { P_final := jsRound (P_final_lecturesQ tasks baseRatePerMinute + P_final_otherQ tasks)
    P_final_lectures := jsRound (P_final_lecturesQ tasks baseRatePerMinute)
    P_final_other := jsRound (P_final_otherQ tasks)
    T_billable := T_billableQ tasks
    totalChaptersCompleted := totalChaptersCompletedQ tasks
    R_minute := R_minuteQ baseRatePerMinute
    M_rate := M_rateQ (averageRatingQ tasks)
    M_freq := M_freqQ (lecturesCountN tasks) (T_billableQ tasks)
    averageRating := toFixed2 (averageRatingQ tasks)
    lecturesCount := lecturesCountN tasks
    basePayLectures := jsRound (basePayLecturesQ tasks baseRatePerMinute)
    CHAPTER_RATE := 500 }

/-! ### Derived and spec-side definitions -/

/-- Append a key to an accumulator of distinct keys unless already present:
one step of first-occurrence deduplication (JS object key insertion). -/
def addKey (acc : List String) (s : String) : List String :=
  if s ∈ acc then acc else acc ++ [s]

/-- The distinct elements of a list of strings, in first-occurrence order. -/
def firstKeys (l : List String) : List String :=
  l.foldl addKey []

/-- The Lecture records that survive the grouping guard. -/
def lectureTasks (tasks : List Task) : List Task :=
  tasks.filter includeLecture

/-- The chapter names that occur among the surviving Lecture records, in
first-occurrence order: exactly the keys of the JS `chapterData` object. -/
def chapterKeys (tasks : List Task) : List String :=
  firstKeys ((lectureTasks tasks).map Task.chapterName)

/-- The surviving Lecture records of one chapter group. -/
def groupTasks (tasks : List Task) (k : String) : List Task :=
  (lectureTasks tasks).filter (fun t => decide (t.chapterName = k))

/-- Total minutes delivered in one chapter group. -/
def groupMinutes (tasks : List Task) (k : String) : ℚ :=
  ((groupTasks tasks k).map (fun t => numOrZero t.minutes)).sum

/-- The present (truthy) ratings of one chapter group, in record order. -/
def groupRatings (tasks : List Task) (k : String) : List ℚ :=
  ((groupTasks tasks k).map ratingList).flatten

/-- Number of records in one chapter group. -/
def groupCount (tasks : List Task) (k : String) : ℕ :=
  (groupTasks tasks k).length

/-- The accumulator a chapter group ends up with, stated directly from the
flat list of records rather than through the fold. -/
def groupAcc (tasks : List Task) (k : String) : ChapterAcc :=
  { totalMinutes := groupMinutes tasks k
    ratings := groupRatings tasks k
    lectureCount := groupCount tasks k }

/-- The frequency modifier exactly as the spec words it: three outcomes in
priority order, penalty as the unconditional fallback. -/
def freqSpecQ (c : ℕ) (tb : ℚ) : ℚ :=
  if 3 ≤ c ∧ 180 ≤ tb then 1.2
  else if 2 ≤ c ∧ 120 ≤ tb then 1
  else 0.8

/-- The quality modifier exactly as the spec words it: both endpoints of
`[2.5, 3.5]` land in the 0.75 branch. -/
def rateSpecQ (avg : ℚ) : ℚ :=
  if avg < 2.5 then 0.6
  else if 2.5 ≤ avg ∧ avg ≤ 3.5 then 0.75
  else 1

/-- The worked scenario of the spec: base rate 10, chapter "Ch1" with two
Lecture records (150 min rated 4, 100 min rated 4.5) and one Content record
with 3 chapters completed. -/
def c2Tasks : List Task :=
  [⟨"Lecture", "Ch1", some 150, some 4, none⟩,
   ⟨"Lecture", "Ch1", some 100, some (9 / 2), none⟩,
   ⟨"Content", "", none, none, some 3⟩]

/-! ### Helper lemmas -/

/-- Evaluate `jsRound` from rational bounds. -/
lemma jsRound_eq {q : ℚ} {z : ℤ} (h1 : (z : ℚ) ≤ q + 1 / 2) (h2 : q + 1 / 2 < z + 1) :
    jsRound q = z := by
  unfold jsRound
  rw [Int.floor_eq_iff]
  exact ⟨h1, by exact_mod_cast h2⟩

/-- Folding addition of `f` over a list is the initial value plus the sum of
the mapped list. -/
lemma foldl_add_eq {α M : Type*} [AddMonoid M] (f : α → M) (l : List α) (a : M) :
    l.foldl (fun s x => s + f x) a = a + (l.map f).sum := by
  induction l generalizing a with
  | nil => simp
  | cons x xs ih => simp [ih, add_assoc]

/-- Independent rounding of two summands differs from rounding the sum by at
most one. -/
lemma jsRound_add_abs_le (a b : ℚ) : |jsRound (a + b) - (jsRound a + jsRound b)| ≤ 1 := by
  have hA1 : ((jsRound a : ℤ) : ℚ) ≤ a + 1 / 2 := Int.floor_le _
  have hA2 : a + 1 / 2 < (jsRound a : ℤ) + 1 := Int.lt_floor_add_one _
  have hB1 : ((jsRound b : ℤ) : ℚ) ≤ b + 1 / 2 := Int.floor_le _
  have hB2 : b + 1 / 2 < (jsRound b : ℤ) + 1 := Int.lt_floor_add_one _
  have hC1 : ((jsRound (a + b) : ℤ) : ℚ) ≤ a + b + 1 / 2 := Int.floor_le _
  have hC2 : a + b + 1 / 2 < (jsRound (a + b) : ℤ) + 1 := Int.lt_floor_add_one _
  have k1 : ((2 * (jsRound (a + b) - (jsRound a + jsRound b)) : ℤ) : ℚ) < 3 := by
    push_cast
    linarith
  have k2 : (-3 : ℚ) < ((2 * (jsRound (a + b) - (jsRound a + jsRound b)) : ℤ) : ℚ) := by
    push_cast
    linarith
  have k3 : (2 * (jsRound (a + b) - (jsRound a + jsRound b)) : ℤ) < 3 := by exact_mod_cast k1
  have k4 : (-3 : ℤ) < 2 * (jsRound (a + b) - (jsRound a + jsRound b)) := by exact_mod_cast k2
  rw [abs_le]
  omega

lemma M_freq_eq_spec (c : ℕ) (tb : ℚ) : M_freqQ c tb = freqSpecQ c tb := by
  unfold M_freqQ freqSpecQ
  split_ifs with h1 h2 h3
  · rfl
  · rfl
  · rfl
  · push_neg at h3
    exact absurd ⟨h3.1, h3.2⟩ h2

lemma M_rate_eq_spec (avg : ℚ) : M_rateQ avg = rateSpecQ avg := by
  unfold M_rateQ rateSpecQ
  rcases lt_or_le avg 2.5 with h | h
  · rw [if_pos h, if_pos h]
  · rw [if_neg (not_lt.mpr h), if_neg (not_lt.mpr h)]
    rcases le_or_lt avg 3.5 with h2 | h2
    · rw [if_pos h2, if_pos ⟨h, h2⟩]
    · rw [if_neg (not_le.mpr h2), if_neg (fun hc => (not_le.mpr h2) hc.2)]

/-! ### Grouping structure lemmas -/

lemma mem_addKey {acc : List String} {s x : String} :
    x ∈ addKey acc s ↔ x ∈ acc ∨ x = s := by
  unfold addKey
  split_ifs with h
  · constructor
    · exact Or.inl
    · rintro (hx | rfl)
      · exact hx
      · exact h
  · simp [List.mem_append]

lemma nodup_addKey {acc : List String} {s : String} (h : acc.Nodup) :
    (addKey acc s).Nodup := by
  unfold addKey
  split_ifs with hs
  · exact h
  · simp [List.nodup_append, h, hs]

lemma foldl_addKey_mem (l : List String) :
    ∀ (acc : List String) (x : String), x ∈ l.foldl addKey acc ↔ x ∈ acc ∨ x ∈ l := by
  induction l with
  | nil => simp
  | cons s rest ih =>
    intro acc x
    rw [List.foldl_cons, ih, mem_addKey]
    simp only [List.mem_cons]
    tauto

lemma mem_firstKeys {l : List String} {x : String} : x ∈ firstKeys l ↔ x ∈ l := by
  unfold firstKeys
  rw [foldl_addKey_mem]
  simp

lemma nodup_foldl_addKey (l : List String) :
    ∀ acc : List String, acc.Nodup → (l.foldl addKey acc).Nodup := by
  induction l with
  | nil => intro acc h; exact h
  | cons s rest ih => intro acc h; exact ih _ (nodup_addKey h)

lemma nodup_chapterKeys (tasks : List Task) : (chapterKeys tasks).Nodup :=
  nodup_foldl_addKey _ [] List.nodup_nil

lemma firstKeys_append (l : List String) (x : String) :
    firstKeys (l ++ [x]) = addKey (firstKeys l) x := by
  unfold firstKeys
  rw [List.foldl_append]
  rfl

lemma chapterData_append (tasks : List Task) (t : Task) :
    chapterData (tasks ++ [t])
      = if includeLecture t then insertTask t (chapterData tasks) else chapterData tasks := by
  unfold chapterData
  rw [List.foldl_append]
  rfl

lemma lectureTasks_append (tasks : List Task) (t : Task) :
    lectureTasks (tasks ++ [t])
      = lectureTasks tasks ++ if includeLecture t then [t] else [] := by
  unfold lectureTasks
  rw [List.filter_append]
  congr 1
  by_cases hI : includeLecture t
  · simp [List.filter_cons, hI]
  · simp [List.filter_cons, hI]

lemma groupTasks_append (tasks : List Task) (t : Task) (k : String) :
    groupTasks (tasks ++ [t]) k
      = groupTasks tasks k
          ++ if includeLecture t ∧ t.chapterName = k then [t] else [] := by
  unfold groupTasks
  rw [lectureTasks_append, List.filter_append]
  congr 1
  by_cases hI : includeLecture t
  · by_cases hk : t.chapterName = k
    · simp [hI, hk]
    · simp [hI, hk]
  · simp [hI]

lemma groupAcc_append (tasks : List Task) (t : Task) (k : String) :
    groupAcc (tasks ++ [t]) k
      = if includeLecture t ∧ t.chapterName = k
          then (groupAcc tasks k).addTask t else groupAcc tasks k := by
  unfold groupAcc groupMinutes groupRatings groupCount
  rw [groupTasks_append]
  by_cases h : includeLecture t ∧ t.chapterName = k
  · rw [if_pos h, if_pos h]
    simp [ChapterAcc.addTask, List.map_append, List.sum_append, List.flatten_append]
  · rw [if_neg h, if_neg h]
    simp

lemma chapterKeys_append (tasks : List Task) (t : Task) :
    chapterKeys (tasks ++ [t])
      = if includeLecture t
          then addKey (chapterKeys tasks) t.chapterName
          else chapterKeys tasks := by
  unfold chapterKeys
  rw [lectureTasks_append]
  by_cases hI : includeLecture t
  · rw [if_pos hI, if_pos hI, List.map_append]
    simp [firstKeys_append]
  · rw [if_neg hI, if_neg hI]
    simp

lemma groupTasks_eq_nil {tasks : List Task} {k : String}
    (h : k ∉ chapterKeys tasks) : groupTasks tasks k = [] := by
  unfold groupTasks
  rw [List.filter_eq_nil_iff]
  intro t ht
  simp only [decide_eq_true_eq]
  intro hk
  apply h
  unfold chapterKeys
  rw [mem_firstKeys, ← hk]
  exact List.mem_map_of_mem _ ht

lemma groupAcc_of_not_mem {tasks : List Task} {k : String}
    (h : k ∉ chapterKeys tasks) : groupAcc tasks k = ⟨0, [], 0⟩ := by
  unfold groupAcc groupMinutes groupRatings groupCount
  rw [groupTasks_eq_nil h]
  rfl

lemma insertTask_map (t : Task) (g : String → ChapterAcc) :
    ∀ ks : List String, ks.Nodup →
      insertTask t (ks.map fun k => (k, g k)) =
        if t.chapterName ∈ ks then
          ks.map fun k => (k, if k = t.chapterName then (g k).addTask t else g k)
        else (ks.map fun k => (k, g k)) ++ [(t.chapterName, ChapterAcc.addTask ⟨0, [], 0⟩ t)] := by
  intro ks
  induction ks with
  | nil =>
    intro _
    simp [insertTask]
  | cons k ks ih =>
    intro h
    rw [List.nodup_cons] at h
    obtain ⟨hk, hks⟩ := h
    rw [List.map_cons]
    simp only [insertTask]
    by_cases he : k = t.chapterName
    · rw [if_pos he, if_pos (he ▸ List.mem_cons_self k ks), List.map_cons, if_pos he]
      subst he
      congr 1
      apply List.map_congr_left
      intro a ha
      rw [if_neg]
      intro hak
      exact hk (hak ▸ ha)
    · rw [if_neg he, ih hks]
      by_cases hm : t.chapterName ∈ ks
      · rw [if_pos hm, if_pos (List.mem_cons.mpr (Or.inr hm)), List.map_cons, if_neg he]
      · rw [if_neg hm, if_neg (fun hc => by
          rcases List.mem_cons.mp hc with h1 | h1
          · exact he h1.symm
          · exact hm h1)]
        rfl

lemma chapterData_eq (tasks : List Task) :
    chapterData tasks = (chapterKeys tasks).map fun k => (k, groupAcc tasks k) := by
  induction tasks using List.reverseRecOn with
  | nil => rfl
  | append_singleton tasks t ih =>
    rw [chapterData_append, chapterKeys_append]
    by_cases hI : includeLecture t
    · rw [if_pos hI, if_pos hI, ih, insertTask_map t _ _ (nodup_chapterKeys tasks)]
      by_cases hm : t.chapterName ∈ chapterKeys tasks
      · rw [if_pos hm]
        unfold addKey
        rw [if_pos hm]
        apply List.map_congr_left
        intro k hkmem
        rw [groupAcc_append]
        by_cases he : k = t.chapterName
        · rw [if_pos he, if_pos ⟨hI, he.symm⟩]
        · rw [if_neg he, if_neg (fun hc => he hc.2.symm)]
      · rw [if_neg hm]
        unfold addKey
        rw [if_neg hm, List.map_append]
        congr 1
        · apply List.map_congr_left
          intro k hkmem
          rw [groupAcc_append, if_neg]
          rintro ⟨-, hck⟩
          exact hm (hck ▸ hkmem)
        · rw [List.map_singleton, groupAcc_append, if_pos ⟨hI, rfl⟩,
            groupAcc_of_not_mem hm]
    · rw [if_neg hI, if_neg hI, ih]
      apply List.map_congr_left
      intro k hkmem
      rw [groupAcc_append, if_neg (fun hc => hI hc.1)]

lemma T_billable_eq (tasks : List Task) :
    T_billableQ tasks
      = ((chapterKeys tasks).map fun k => min (groupMinutes tasks k) 240).sum := by
  unfold T_billableQ
  rw [chapterData_eq, foldl_add_eq (fun p : String × ChapterAcc => min p.2.totalMinutes 240), List.map_map]
  rw [zero_add]
  rfl

lemma lecturesCount_eq (tasks : List Task) :
    lecturesCountN tasks = ((chapterKeys tasks).map fun k => groupCount tasks k).sum := by
  unfold lecturesCountN
  rw [chapterData_eq, foldl_add_eq (fun p : String × ChapterAcc => p.2.lectureCount), List.map_map]
  rw [zero_add]
  rfl

/-! ### Non-Lecture accumulation lemmas -/

lemma totalChapters_eq (tasks : List Task) :
    totalChaptersCompletedQ tasks
      = ((nonLectureTasks tasks).map fun t => numOrZero t.chaptersCompleted).sum := by
  unfold totalChaptersCompletedQ
  rw [foldl_add_eq (fun t : Task => numOrZero t.chaptersCompleted), zero_add]

lemma P_other_eq (tasks : List Task) :
    P_final_otherQ tasks
      = ((nonLectureTasks tasks).map fun t => numOrZero t.chaptersCompleted * 500).sum := by
  unfold P_final_otherQ
  rw [foldl_add_eq (fun t : Task => numOrZero t.chaptersCompleted * 500), zero_add]

lemma nonLectureTasks_cons (t : Task) (tasks : List Task) :
    nonLectureTasks (t :: tasks)
      = if t.taskType = "Lecture" then nonLectureTasks tasks
        else t :: nonLectureTasks tasks := by
  unfold nonLectureTasks
  rw [List.filter_cons]
  by_cases h : t.taskType = "Lecture"
  · simp [h]
  · simp [h]

/-! ### Invariance under a record that contributes nothing -/

lemma chapterData_cons_skip {t : Task} (h : includeLecture t = false) (tasks : List Task) :
    chapterData (t :: tasks) = chapterData tasks := by
  simp [chapterData, List.foldl_cons, h]

/-- A record excluded from the lecture grouping and contributing zero chapters
(or being Lecture-typed, hence invisible to the non-Lecture pass) leaves the
whole breakdown unchanged. -/
lemma calculatePayment_cons_zero (t : Task) (tasks : List Task) (r : ℚ)
    (hI : includeLecture t = false)
    (hN : t.taskType = "Lecture" ∨ numOrZero t.chaptersCompleted = 0) :
    calculatePayment (t :: tasks) r = calculatePayment tasks r := by
  have hcd := chapterData_cons_skip hI tasks
  have hT : T_billableQ (t :: tasks) = T_billableQ tasks := by
    unfold T_billableQ
    rw [hcd]
  have hcnt : lecturesCountN (t :: tasks) = lecturesCountN tasks := by
    unfold lecturesCountN
    rw [hcd]
  have hrs : ratingSumQ (t :: tasks) = ratingSumQ tasks := by
    unfold ratingSumQ
    rw [hcd]
  have hrc : ratingCountN (t :: tasks) = ratingCountN tasks := by
    unfold ratingCountN
    rw [hcd]
  have havg : averageRatingQ (t :: tasks) = averageRatingQ tasks := by
    unfold averageRatingQ
    rw [hrs, hrc]
  have hbp : basePayLecturesQ (t :: tasks) r = basePayLecturesQ tasks r := by
    unfold basePayLecturesQ
    rw [hT]
  have hPL : P_final_lecturesQ (t :: tasks) r = P_final_lecturesQ tasks r := by
    unfold P_final_lecturesQ
    unfold basePayLecturesQ
    rw [hT, havg, hcnt]
  have htc : totalChaptersCompletedQ (t :: tasks) = totalChaptersCompletedQ tasks := by
    rw [totalChapters_eq, totalChapters_eq, nonLectureTasks_cons]
    rcases hN with hL | h0
    · rw [if_pos hL]
    · by_cases hL : t.taskType = "Lecture"
      · rw [if_pos hL]
      · rw [if_neg hL, List.map_cons, List.sum_cons, h0, zero_add]
  have hPO : P_final_otherQ (t :: tasks) = P_final_otherQ tasks := by
    rw [P_other_eq, P_other_eq, nonLectureTasks_cons]
    rcases hN with hL | h0
    · rw [if_pos hL]
    · by_cases hL : t.taskType = "Lecture"
      · rw [if_pos hL]
      · rw [if_neg hL, List.map_cons, List.sum_cons, h0, zero_mul, zero_add]
  unfold calculatePayment
  rw [hPL, hPO, hT, havg, hcnt, htc, hbp]

/-! ### Claim theorems -/

/-- C1: the frequency modifier returned by `calculatePayment` always equals
the three-way priority cascade on `(lecturesCount, T_billable)` — bonus 1.2,
then standard 1.0, then penalty 0.8 as the fallback; the chain can never fall
through all three guards and keep the initial value, and the three boundary
points (3, 180), (2, 120) and (1, 50) give 1.2, 1.0 and 0.8 respectively. -/
theorem freq_modifier_priority_c1 (tasks : List Task) (r : ℚ) :
    ((calculatePayment tasks r).M_freq
      = freqSpecQ (calculatePayment tasks r).lecturesCount (calculatePayment tasks r).T_billable)
    ∧ (∀ (c : ℕ) (tb : ℚ), M_freqQ c tb = freqSpecQ c tb)
    ∧ M_freqQ 3 180 = 1.2 ∧ M_freqQ 2 120 = 1 ∧ M_freqQ 1 50 = 0.8 := by
  refine ⟨M_freq_eq_spec _ _, M_freq_eq_spec, ?_, ?_, ?_⟩
  · norm_num [M_freqQ]
  · norm_num [M_freqQ]
  · norm_num [M_freqQ]

/-- C4: the quality modifier returned by `calculatePayment` is the step
function of the average rating with inclusive endpoints on `[2.5, 3.5]`:
below 2.5 it is 0.6, from 2.5 to 3.5 inclusive it is 0.75, above 3.5 it is
1.0; in particular 3.5 ↦ 0.75, 2.5 ↦ 0.75 and 2.49 ↦ 0.6. -/
theorem rate_modifier_step_c4 (tasks : List Task) (r : ℚ) :
    ((calculatePayment tasks r).M_rate = rateSpecQ (averageRatingQ tasks))
    ∧ (∀ avg : ℚ, M_rateQ avg = rateSpecQ avg)
    ∧ M_rateQ 3.5 = 0.75 ∧ M_rateQ 2.5 = 0.75 ∧ M_rateQ 2.49 = 0.6 := by
  refine ⟨M_rate_eq_spec _, M_rate_eq_spec, ?_, ?_, ?_⟩
  · norm_num [M_rateQ]
  · norm_num [M_rateQ]
  · norm_num [M_rateQ]

/-- C5: `P_final` is the rounding of the exact (unrounded) sum of the two pay
components; rounding touches only the monetary outputs (`P_final`,
`P_final_lectures`, `P_final_other`, `basePayLectures`) while the modifiers
are returned at full precision; and `P_final` differs from the sum of the two
independently rounded components by at most 1. -/
theorem rounding_last_c5 (tasks : List Task) (r : ℚ) :
    (calculatePayment tasks r).P_final
        = jsRound (P_final_lecturesQ tasks r + P_final_otherQ tasks)
    ∧ (calculatePayment tasks r).P_final_lectures = jsRound (P_final_lecturesQ tasks r)
    ∧ (calculatePayment tasks r).P_final_other = jsRound (P_final_otherQ tasks)
    ∧ (calculatePayment tasks r).basePayLectures = jsRound (basePayLecturesQ tasks r)
    ∧ (calculatePayment tasks r).M_rate = M_rateQ (averageRatingQ tasks)
    ∧ (calculatePayment tasks r).M_freq = M_freqQ (lecturesCountN tasks) (T_billableQ tasks)
    ∧ |(calculatePayment tasks r).P_final
        - ((calculatePayment tasks r).P_final_lectures
            + (calculatePayment tasks r).P_final_other)| ≤ 1 :=
  ⟨rfl, rfl, rfl, rfl, rfl, rfl, jsRound_add_abs_le _ _⟩

/-- C9: the returned `R_minute` is the supplied base rate when it is truthy
(nonzero) and 10 when it is falsy (zero/absent), and `basePayLectures` is
(the rounding of) `T_billable * R_minute`. -/
theorem base_rate_default_c9 (tasks : List Task) (r : ℚ) :
    (calculatePayment tasks r).R_minute = (if r = 0 then 10 else r)
    ∧ basePayLecturesQ tasks r = T_billableQ tasks * R_minuteQ r
    ∧ (calculatePayment tasks r).basePayLectures
        = jsRound (T_billableQ tasks * R_minuteQ r) :=
  ⟨rfl, rfl, rfl⟩

/-- C6: on the empty record list, whatever the base rate, the calculator
returns `P_final = 0`, the optimistic default average rating formatted as
"5.00", `M_rate = 1.0`, the penalty `M_freq = 0.8`, and `T_billable = 0`. -/
theorem empty_records_c6 (r : ℚ) :
    (calculatePayment [] r).P_final = 0
    ∧ (calculatePayment [] r).averageRating = "5.00"
    ∧ (calculatePayment [] r).M_rate = 1
    ∧ (calculatePayment [] r).M_freq = 0.8
    ∧ (calculatePayment [] r).T_billable = 0 := by
  have hT : T_billableQ [] = 0 := rfl
  have havg : averageRatingQ [] = 5 := rfl
  have hPL : P_final_lecturesQ [] r = 0 := by
    simp [P_final_lecturesQ, basePayLecturesQ, hT]
  have hPO : P_final_otherQ [] = 0 := rfl
  have h0 : jsRound 0 = 0 := jsRound_eq (by norm_num) (by norm_num)
  have h500 : jsRound (5 * 100) = 500 := jsRound_eq (by norm_num) (by norm_num)
  refine ⟨?_, ?_, ?_, ?_, hT⟩
  · show jsRound (P_final_lecturesQ [] r + P_final_otherQ []) = 0
    rw [hPL, hPO, add_zero]
    exact h0
  · show toFixed2 (averageRatingQ []) = "5.00"
    rw [havg]
    unfold toFixed2
    rw [h500]
    decide
  · show M_rateQ (averageRatingQ []) = 1
    rw [havg]
    norm_num [M_rateQ]
  · show M_freqQ (lecturesCountN []) (T_billableQ []) = 0.8
    show M_freqQ 0 0 = 0.8
    norm_num [M_freqQ]

/-- C2: the worked scenario — base rate 10, two Ch1 lectures (150 min rated 4,
100 min rated 4.5) and one Content record with 3 chapters — yields
`T_billable = 240` (capped from 250), average rating "4.25", `M_rate = 1.0`,
`lecturesCount = 2`, `M_freq = 1.0`, `basePayLectures = 2400`,
`P_final_lectures = 2400`, `P_final_other = 1500` and `P_final = 3900`. -/
theorem scenario_breakdown_c2 :
    (calculatePayment c2Tasks 10).T_billable = 240
    ∧ (calculatePayment c2Tasks 10).averageRating = "4.25"
    ∧ (calculatePayment c2Tasks 10).M_rate = 1
    ∧ (calculatePayment c2Tasks 10).lecturesCount = 2
    ∧ (calculatePayment c2Tasks 10).M_freq = 1
    ∧ (calculatePayment c2Tasks 10).basePayLectures = 2400
    ∧ (calculatePayment c2Tasks 10).P_final_lectures = 2400
    ∧ (calculatePayment c2Tasks 10).P_final_other = 1500
    ∧ (calculatePayment c2Tasks 10).P_final = 3900 := by
  have h1 : ("Ch1" : String) ≠ "" := by decide
  have h2 : ("Content" : String) ≠ "Lecture" := by decide
  have hcd : chapterData c2Tasks = [("Ch1", ⟨250, [4, 9 / 2], 2⟩)] := by
    norm_num [c2Tasks, chapterData, includeLecture, insertTask, ChapterAcc.addTask, ratingList,
      numOrZero, List.foldl, h1, h2]
  have hT : T_billableQ c2Tasks = 240 := by
    unfold T_billableQ
    rw [hcd]
    norm_num [List.foldl, min_def]
  have hcnt : lecturesCountN c2Tasks = 2 := by
    unfold lecturesCountN
    rw [hcd]
    norm_num [List.foldl]
  have hsum : ratingSumQ c2Tasks = 17 / 2 := by
    unfold ratingSumQ
    rw [hcd]
    norm_num [List.foldl]
  have hrc : ratingCountN c2Tasks = 2 := by
    unfold ratingCountN
    rw [hcd]
    norm_num [List.foldl]
  have havg : averageRatingQ c2Tasks = 17 / 4 := by
    unfold averageRatingQ
    rw [hsum, hrc]
    norm_num
  have h425 : jsRound (17 / 4 * 100) = 425 := jsRound_eq (by norm_num) (by norm_num)
  have hfix : toFixed2 (17 / 4) = "4.25" := by
    unfold toFixed2
    rw [h425]
    decide
  have hMr : M_rateQ (17 / 4) = 1 := by norm_num [M_rateQ]
  have hMf : M_freqQ 2 240 = 1 := by norm_num [M_freqQ]
  have hR : R_minuteQ 10 = 10 := by norm_num [R_minuteQ]
  have hbp : basePayLecturesQ c2Tasks 10 = 2400 := by
    unfold basePayLecturesQ
    rw [hT, hR]
    norm_num
  have hPL : P_final_lecturesQ c2Tasks 10 = 2400 := by
    unfold P_final_lecturesQ
    rw [hbp, havg, hcnt, hT, hMr, hMf]
    norm_num
  have hnl : nonLectureTasks c2Tasks = [⟨"Content", "", none, none, some 3⟩] := by
    norm_num [nonLectureTasks, c2Tasks, List.filter, h2]
  have hPO : P_final_otherQ c2Tasks = 1500 := by
    unfold P_final_otherQ
    rw [hnl]
    norm_num [List.foldl, numOrZero]
  have h2400 : jsRound 2400 = 2400 := jsRound_eq (by norm_num) (by norm_num)
  have h1500 : jsRound 1500 = 1500 := jsRound_eq (by norm_num) (by norm_num)
  have h3900 : jsRound ((2400 : ℚ) + 1500) = 3900 := jsRound_eq (by norm_num) (by norm_num)
  refine ⟨hT, ?_, ?_, hcnt, ?_, ?_, ?_, ?_, ?_⟩
  · show toFixed2 (averageRatingQ c2Tasks) = "4.25"
    rw [havg]
    exact hfix
  · show M_rateQ (averageRatingQ c2Tasks) = 1
    rw [havg]
    exact hMr
  · show M_freqQ (lecturesCountN c2Tasks) (T_billableQ c2Tasks) = 1
    rw [hcnt, hT]
    exact hMf
  · show jsRound (basePayLecturesQ c2Tasks 10) = 2400
    rw [hbp]
    exact h2400
  · show jsRound (P_final_lecturesQ c2Tasks 10) = 2400
    rw [hPL]
    exact h2400
  · show jsRound (P_final_otherQ c2Tasks) = 1500
    rw [hPO]
    exact h1500
  · show jsRound (P_final_lecturesQ c2Tasks 10 + P_final_otherQ c2Tasks) = 3900
    rw [hPL, hPO]
    exact h3900

/-- C3: `T_billable` is the sum over chapter groups (surviving Lecture
records grouped by chapter name) of the group total minutes capped at 240,
while `lecturesCount` is the uncapped sum of group record counts; two Lecture
records of 200 and 100 minutes in the same chapter give `T_billable = 240`,
not 300. -/
theorem chapter_cap_c3 (tasks : List Task) (r : ℚ) :
    ((calculatePayment tasks r).T_billable
        = ((chapterKeys tasks).map fun k => min (groupMinutes tasks k) 240).sum)
    ∧ ((calculatePayment tasks r).lecturesCount
        = ((chapterKeys tasks).map fun k => groupCount tasks k).sum)
    ∧ (calculatePayment
        [⟨"Lecture", "Ch1", some 200, none, none⟩,
         ⟨"Lecture", "Ch1", some 100, none, none⟩] r).T_billable = 240 := by
  refine ⟨T_billable_eq tasks, lecturesCount_eq tasks, ?_⟩
  have h1 : ("Ch1" : String) ≠ "" := by decide
  have hcd : chapterData [⟨"Lecture", "Ch1", some 200, none, none⟩,
      ⟨"Lecture", "Ch1", some 100, none, none⟩] = [("Ch1", ⟨300, [], 2⟩)] := by
    norm_num [chapterData, includeLecture, insertTask, ChapterAcc.addTask, ratingList,
      numOrZero, List.foldl, h1]
  show T_billableQ _ = 240
  unfold T_billableQ
  rw [hcd]
  norm_num [List.foldl, min_def]

/-- C7: every non-Lecture record contributes exactly `chaptersCompleted * 500`
to the other-work pay (0 when the field is absent), linearly and with no cap,
ignoring its rating and minutes; `totalChaptersCompleted` is the plain sum of
`chaptersCompleted` over those records; a single non-Lecture record with 4
chapters contributes exactly 2000 whatever its rating or minutes. -/
theorem non_lecture_linear_c7 (tasks : List Task) (r : ℚ) :
    ((calculatePayment tasks r).totalChaptersCompleted
        = ((nonLectureTasks tasks).map fun t => numOrZero t.chaptersCompleted).sum)
    ∧ (P_final_otherQ tasks
        = ((nonLectureTasks tasks).map fun t => numOrZero t.chaptersCompleted * 500).sum)
    ∧ (∀ t : Task, t.taskType ≠ "Lecture" →
        P_final_otherQ (t :: tasks)
          = numOrZero t.chaptersCompleted * 500 + P_final_otherQ tasks)
    ∧ (∀ (ty ch : String) (m rat : Option ℚ), ty ≠ "Lecture" →
        (calculatePayment [⟨ty, ch, m, rat, some 4⟩] r).P_final_other = 2000) := by
  refine ⟨totalChapters_eq tasks, P_other_eq tasks, ?_, ?_⟩
  · intro t ht
    rw [P_other_eq, P_other_eq, nonLectureTasks_cons, if_neg ht, List.map_cons, List.sum_cons]
  · intro ty ch m rat hty
    have hnl : nonLectureTasks [⟨ty, ch, m, rat, some 4⟩] = [⟨ty, ch, m, rat, some 4⟩] := by
      simp [nonLectureTasks, List.filter, hty]
    have hPO : P_final_otherQ [⟨ty, ch, m, rat, some 4⟩] = 2000 := by
      rw [P_other_eq, hnl]
      norm_num [numOrZero]
    show jsRound (P_final_otherQ [⟨ty, ch, m, rat, some 4⟩]) = 2000
    rw [hPO]
    exact jsRound_eq (by norm_num) (by norm_num)

/-- C7 witness: a concrete Content record with 4 chapters completed and no
rating or minutes contributes exactly 2000. -/
theorem non_lecture_linear_c7_witness :
    (calculatePayment [⟨"Content", "", none, none, some 4⟩] 10).P_final_other = 2000 :=
  (non_lecture_linear_c7 [] 10).2.2.2 "Content" "" none none (by decide)

/-- C8: the calculator is a total function, and a record whose numeric fields
are missing or zero (non-positive minutes, zero/absent chaptersCompleted)
degrades gracefully: it contributes nothing at all, leaving every output of
the breakdown unchanged rather than raising an error. -/
theorem graceful_degenerate_c8 (tasks : List Task) (r : ℚ) (t : Task)
    (h1 : numOrZero t.minutes ≤ 0) (h2 : numOrZero t.chaptersCompleted = 0) :
    calculatePayment (t :: tasks) r = calculatePayment tasks r := by
  have hI : includeLecture t = false := by
    unfold includeLecture
    rw [decide_eq_false_iff_not]
    rintro ⟨-, -, h3⟩
    exact (not_lt.mpr h1) h3
  exact calculatePayment_cons_zero t tasks r hI (Or.inr h2)

/-- C8 witness: a Lecture record with every optional field absent changes
nothing. -/
theorem graceful_degenerate_c8_witness :
    calculatePayment [⟨"Lecture", "", none, none, none⟩] 10 = calculatePayment [] 10 :=
  graceful_degenerate_c8 [] 10 ⟨"Lecture", "", none, none, none⟩
    (by simp [numOrZero]) (by simp [numOrZero])

/-- C10: a Lecture-typed record that is silently excluded from lecture pay
(empty chapter name, or zero/missing/non-positive minutes) also contributes
nothing to the non-Lecture totals — even when it carries a
`chaptersCompleted` field — so the whole breakdown is unchanged. -/
theorem lecture_excluded_no_other_c10 (tasks : List Task) (r : ℚ) (t : Task)
    (hL : t.taskType = "Lecture")
    (hx : t.chapterName = "" ∨ numOrZero t.minutes ≤ 0) :
    calculatePayment (t :: tasks) r = calculatePayment tasks r := by
  have hI : includeLecture t = false := by
    unfold includeLecture
    rw [decide_eq_false_iff_not]
    rintro ⟨-, hch, hm⟩
    rcases hx with h | h
    · exact hch h
    · exact (not_lt.mpr h) hm
  exact calculatePayment_cons_zero t tasks r hI (Or.inl hL)

/-- C10 witness: a Lecture record with positive minutes but an empty chapter
name, carrying `chaptersCompleted = 7`, changes nothing. -/
theorem lecture_excluded_no_other_c10_witness :
    calculatePayment [⟨"Lecture", "", some 60, none, some 7⟩] 10 = calculatePayment [] 10 :=
  lecture_excluded_no_other_c10 [] 10 ⟨"Lecture", "", some 60, none, some 7⟩
    rfl (Or.inl rfl)

end Prep4
